import Mathlib

/-!
Verification development for the mahiro database core
(src/packages/mahiro/src/database/index.ts).

The TypeScript `Database` class is shallowly embedded: the mutable fields of
the class (runtime plugin registries, the two TTL caches, the cache timestamp
map) together with the persisted sqlite tables are gathered into one explicit
state record, and every method becomes a pure Lean function threading that
state.  JavaScript strings that hold delimited integer lists are modelled as
lists of characters; JavaScript exceptions thrown by the storage layer are
modelled with `Except`, driven by a `storeFails` flag in the state (the store
is an external collaborator that either serves reads or throws).  `Date.now()`
is modelled by passing the current instant `now` explicitly.
-/

deriving instance DecidableEq for Except

namespace Mahiro

/-! ### Decimal digits: model of JavaScript number-to-string conversion -/

/-- Decimal digit character for a digit value below ten. -/
def digitChar (d : Nat) : Char :=
  match d with
  | 0 => '0' | 1 => '1' | 2 => '2' | 3 => '3' | 4 => '4'
  | 5 => '5' | 6 => '6' | 7 => '7' | 8 => '8' | 9 => '9'
  | _ => '*'

/-- Numeric value of a decimal digit character. -/
def digitVal (c : Char) : Nat := c.toNat - 48

/-- Fuel-driven accumulator loop producing the decimal digits of `n`. -/
def natToCharsGo : Nat → Nat → List Char → List Char
  | 0, _, acc => acc
  | fuel + 1, n, acc =>
    if n < 10 then digitChar n :: acc
    else natToCharsGo fuel (n / 10) (digitChar (n % 10) :: acc)

/-- Decimal representation of a natural number, as a character list.  Models
the JavaScript conversion of a nonnegative integer to a string. -/
def natToChars (n : Nat) : List Char := natToCharsGo (n + 1) n []

/-- Parse a character list of decimal digits into a natural number. -/
def parseNatChars (cs : List Char) : Nat :=
  cs.foldl (fun a c => a * 10 + digitVal c) 0

theorem digitVal_digitChar : ∀ d < 10, digitVal (digitChar d) = d := by decide

theorem digitChar_ne_comma : ∀ d < 10, digitChar d ≠ ',' := by decide

theorem natToCharsGo_spec :
    ∀ n fuel acc, n < fuel → natToCharsGo fuel n acc = natToChars n ++ acc := by
  intro n
  induction n using Nat.strong_induction_on with
  | _ n ih =>
    intro fuel acc hfu
    match fuel with
    | 0 => omega
    | f + 1 =>
      by_cases h10 : n < 10
      · simp [natToCharsGo, natToChars, h10]
      · have hn0 : 0 < n := by omega
        have hdiv : n / 10 < n := Nat.div_lt_self hn0 (by omega)
        have hdivf : n / 10 < f := by omega
        simp only [natToCharsGo, if_neg h10, natToChars]
        rw [ih (n / 10) hdiv f _ hdivf, ih (n / 10) hdiv n _ hdiv]
        simp

theorem parseNatChars_append (xs ys : List Char) :
    parseNatChars (xs ++ ys) =
      ys.foldl (fun a c => a * 10 + digitVal c) (parseNatChars xs) := by
  simp [parseNatChars, List.foldl_append]

theorem parseNatChars_natToChars (n : Nat) : parseNatChars (natToChars n) = n := by
  induction n using Nat.strong_induction_on with
  | _ n ih =>
    by_cases h10 : n < 10
    · have hd := digitVal_digitChar n h10
      simp [natToChars, natToCharsGo, h10, parseNatChars, hd]
    · have hn0 : 0 < n := by omega
      have hdiv : n / 10 < n := Nat.div_lt_self hn0 (by omega)
      have hrepr : natToChars n = natToChars (n / 10) ++ [digitChar (n % 10)] := by
        simp only [natToChars, natToCharsGo, if_neg h10]
        exact natToCharsGo_spec (n / 10) n _ hdiv
      rw [hrepr, parseNatChars_append, ih (n / 10) hdiv]
      have hmod : n % 10 < 10 := Nat.mod_lt _ (by omega)
      have hd := digitVal_digitChar (n % 10) hmod
      simp [hd]
      omega

theorem natToChars_ne_nil (n : Nat) : natToChars n ≠ [] := by
  by_cases h10 : n < 10
  · simp [natToChars, natToCharsGo, h10]
  · have hn0 : 0 < n := by omega
    have hdiv : n / 10 < n := Nat.div_lt_self hn0 (by omega)
    have hrepr : natToChars n = natToChars (n / 10) ++ [digitChar (n % 10)] := by
      simp only [natToChars, natToCharsGo, if_neg h10]
      exact natToCharsGo_spec (n / 10) n _ hdiv
    simp [hrepr]

theorem natToChars_no_comma (n : Nat) : ∀ c ∈ natToChars n, c ≠ ',' := by
  induction n using Nat.strong_induction_on with
  | _ n ih =>
    by_cases h10 : n < 10
    · intro c hc
      simp [natToChars, natToCharsGo, h10] at hc
      subst hc
      exact digitChar_ne_comma n h10
    · have hn0 : 0 < n := by omega
      have hdiv : n / 10 < n := Nat.div_lt_self hn0 (by omega)
      have hrepr : natToChars n = natToChars (n / 10) ++ [digitChar (n % 10)] := by
        simp only [natToChars, natToCharsGo, if_neg h10]
        exact natToCharsGo_spec (n / 10) n _ hdiv
      intro c hc
      rw [hrepr, List.mem_append] at hc
      rcases hc with hc | hc
      · exact ih (n / 10) hdiv c hc
      · simp at hc
        subst hc
        exact digitChar_ne_comma (n % 10) (Nat.mod_lt _ (by omega))

/-! ### Comma-delimited lists

`joinComma` models the JavaScript `array.join(',')` used by `updatePlugin`,
`updateGroup` and `addGroup` when persisting list-valued fields; `splitComma`
splits a character list at every comma. -/

/-- Model of `array.join(',')` for an array of nonnegative integers. -/
def joinComma : List Nat → List Char
  | [] => []
  | [n] => natToChars n
  | n :: rest => natToChars n ++ ',' :: joinComma rest

/-- Split a character list at every comma (every occurrence separates). -/
def splitComma : List Char → List (List Char)
  | [] => [[]]
  | c :: cs =>
    if c = ',' then [] :: splitComma cs
    else
      match splitComma cs with
      | [] => [[c]]
      | w :: ws => (c :: w) :: ws

/-- Modelled from the spec: the repository utility `toArrayNumber`
(imported from `../utils`, whose source file is not part of the provided
sources) parses a delimited-string field into an ordered sequence of
integers; empty or absent values parse to the empty sequence. -/
def toArrayNumber (cs : List Char) : List Nat :=
  if cs.isEmpty then [] else (splitComma cs).map parseNatChars

theorem splitComma_ne_nil (cs : List Char) : splitComma cs ≠ [] := by
  induction cs with
  | nil => simp [splitComma]
  | cons c cs ih =>
    by_cases hc : c = ','
    · simp [splitComma, hc]
    · simp only [splitComma, if_neg hc]
      match h : splitComma cs with
      | [] => simp
      | w :: ws => simp

theorem splitComma_no_comma (w : List Char) (hw : ∀ c ∈ w, c ≠ ',') :
    splitComma w = [w] := by
  induction w with
  | nil => simp [splitComma]
  | cons c cs ih =>
    have hc : c ≠ ',' := hw c (by simp)
    have hcs : ∀ x ∈ cs, x ≠ ',' := fun x hx => hw x (by simp [hx])
    simp only [splitComma, if_neg hc, ih hcs]

theorem splitComma_append (w rest : List Char) (hw : ∀ c ∈ w, c ≠ ',') :
    splitComma (w ++ ',' :: rest) = w :: splitComma rest := by
  induction w with
  | nil => simp [splitComma]
  | cons c cs ih =>
    have hc : c ≠ ',' := hw c (by simp)
    have hcs : ∀ x ∈ cs, x ≠ ',' := fun x hx => hw x (by simp [hx])
    show splitComma (c :: (cs ++ ',' :: rest)) = (c :: cs) :: splitComma rest
    simp only [splitComma, if_neg hc]
    rw [ih hcs]

theorem joinComma_cons_ne_nil (n : Nat) (rest : List Nat) :
    joinComma (n :: rest) ≠ [] := by
  match rest with
  | [] => simpa [joinComma] using natToChars_ne_nil n
  | r :: rs => simp [joinComma]

theorem toArrayNumber_joinComma (l : List Nat) :
    toArrayNumber (joinComma l) = l := by
  induction l with
  | nil => simp [joinComma, toArrayNumber]
  | cons n rest ih =>
    match rest with
    | [] =>
      have hne := natToChars_ne_nil n
      have hsplit := splitComma_no_comma (natToChars n) (natToChars_no_comma n)
      simp [joinComma, toArrayNumber, List.isEmpty_iff, hne, hsplit,
        parseNatChars_natToChars]
    | r :: rs =>
      have hne := joinComma_cons_ne_nil n (r :: rs)
      have hne2 := joinComma_cons_ne_nil r rs
      have hsplit := splitComma_append (natToChars n) (joinComma (r :: rs))
        (natToChars_no_comma n)
      have hjoin : joinComma (n :: r :: rs) =
          natToChars n ++ ',' :: joinComma (r :: rs) := by
        simp [joinComma]
      rw [toArrayNumber, if_neg (by simpa [List.isEmpty_iff] using hne)]
      rw [hjoin, hsplit]
      have ihx : (splitComma (joinComma (r :: rs))).map parseNatChars = r :: rs := by
        have := ih
        rw [toArrayNumber, if_neg (by simpa [List.isEmpty_iff] using hne2)] at this
        exact this
      simp [parseNatChars_natToChars, ihx]

/-! ### Data model

`PluginRow` and `GroupRow` are the persisted sqlite rows (list-valued fields
stored as delimited character strings, as created by `checkTables`);
`MvcPlugin` and `MvcGroup` are the parsed records produced by `getPlugins` /
`getGroups` (`IMvcPlugin` / `IMvcGroup` in the source). -/

/-- A persisted row of the `plugins` table. -/
structure PluginRow where
  id : Nat
  name : String
  enabled : Bool
  internal : Bool
  threshold : Nat
  white_list_users : List Char
  black_list_users : List Char
  deriving Repr, DecidableEq

/-- A persisted row of the `groups` table. -/
structure GroupRow where
  id : Nat
  name : String
  group_id : Nat
  admins : List Char
  expired_at : String
  plugins : List Char
  deriving Repr, DecidableEq

/-- Parsed plugin record (`IMvcPlugin`). -/
structure MvcPlugin where
  id : Nat
  name : String
  enabled : Bool
  internal : Bool
  threshold : Nat
  white_list_users : List Nat
  black_list_users : List Nat
  deriving Repr, DecidableEq

/-- Parsed group record (`IMvcGroup`). -/
structure MvcGroup where
  id : Nat
  name : String
  group_id : Nat
  expired_at : String
  admins : List Nat
  plugins : List Nat
  deriving Repr, DecidableEq

/-! ### Association lists, modelling the two JavaScript `Map`s -/

/-- Lookup in an association list (model of `Map.get`). -/
def assocGet {κ α : Type} [DecidableEq κ] : List (κ × α) → κ → Option α
  | [], _ => none
  | (k', v) :: rest, k => if k' = k then some v else assocGet rest k

/-- Insert or overwrite in an association list (model of `Map.set`). -/
def assocSet {κ α : Type} [DecidableEq κ] : List (κ × α) → κ → α → List (κ × α)
  | [], k, v => [(k, v)]
  | (k', v') :: rest, k, v =>
    if k' = k then (k, v) :: rest else (k', v') :: assocSet rest k v

theorem assocGet_assocSet_self {κ α : Type} [DecidableEq κ]
    (m : List (κ × α)) (k : κ) (v : α) : assocGet (assocSet m k v) k = some v := by
  induction m with
  | nil => simp [assocGet, assocSet]
  | cons kv rest ih =>
    obtain ⟨a, b⟩ := kv
    by_cases h : a = k
    · simp [assocSet, assocGet, h]
    · simp [assocSet, assocGet, h, ih]

theorem assocGet_assocSet_ne {κ α : Type} [DecidableEq κ]
    (m : List (κ × α)) (k k' : κ) (v : α) (hk : k' ≠ k) :
    assocGet (assocSet m k' v) k = assocGet m k := by
  induction m with
  | nil => simp [assocGet, assocSet, hk]
  | cons kv rest ih =>
    obtain ⟨a, b⟩ := kv
    by_cases h : a = k'
    · subst h
      simp [assocSet, assocGet, hk]
    · by_cases h2 : a = k
      · simp [assocSet, assocGet, h, h2, Ne.symm hk]
      · simp [assocSet, assocGet, h, h2, ih]

/-! ### The database state

All mutable fields of the `Database` class, together with the two persisted
tables and the auto-increment counters of the sqlite store.  `storeFails`
models the external storage engine: when it is `true` every storage call
throws. -/

/-- Explicit state of the `Database` class plus its sqlite store. -/
structure DatabaseState where
  storeFails : Bool
  nextPluginId : Nat
  nextGroupId : Nat
  pluginRows : List PluginRow
  groupRows : List GroupRow
  registeredPlugins : List String
  registeredExternalPlugins : List String
  pluginCache : Option (List MvcPlugin)
  groupCache : List (Nat × MvcGroup)
  cacheTimeMap : List (String × Nat)
  cacheTime : Nat
  deriving Repr, DecidableEq

/-- The `plugins` cache key of `this.cacheKeys`. -/
def cacheKeyPlugins : String := "plugins"

/-- The `groups` cache key of `this.cacheKeys`. -/
def cacheKeyGroups : String := "groups"

/-! ### Methods of the `Database` class -/

/-- `isCacheExpired(key)`: the stored timestamp is consulted only when it is
truthy (a stored `0` is falsy in JavaScript and is treated like a missing
timestamp); the age test uses JavaScript number subtraction, modelled on `Int`. -/
def isCacheExpired (s : DatabaseState) (key : String) (now : Nat) : Bool :=
  match assocGet s.cacheTimeMap key with
  | none => true
  | some latest =>
    if latest ≠ 0 ∧ (now : Int) - (latest : Int) < (s.cacheTime : Int) then false
    else true

/-- `updateCacheTimeMap(key)`, with the current instant passed explicitly. -/
def updateCacheTimeMap (s : DatabaseState) (key : String) (now : Nat) : DatabaseState :=
  { s with cacheTimeMap := assocSet s.cacheTimeMap key now }

/-- Parse a persisted plugin row into an `IMvcPlugin` (body of the `map` in
`getPlugins`). -/
def toMvcPlugin (r : PluginRow) : MvcPlugin :=
  { id := r.id, name := r.name, enabled := r.enabled, internal := r.internal,
    threshold := r.threshold,
    white_list_users := toArrayNumber r.white_list_users,
    black_list_users := toArrayNumber r.black_list_users }

/-- Parse a persisted group row into an `IMvcGroup` (body of the `map` in
`getGroups`). -/
def toMvcGroup (r : GroupRow) : MvcGroup :=
  { id := r.id, name := r.name, group_id := r.group_id, expired_at := r.expired_at,
    admins := toArrayNumber r.admins, plugins := toArrayNumber r.plugins }

/-- `getPlugins()`: read all plugin rows, parse them, and keep only the ones
whose name is in the runtime `registeredPlugins` list. -/
def getPlugins (s : DatabaseState) : Except Unit (List MvcPlugin) :=
  if s.storeFails then .error ()
  else .ok ((s.pluginRows.map toMvcPlugin).filter
    (fun p => s.registeredPlugins.contains p.name))

/-- `getGroups()`: read all group rows and parse them. -/
def getGroups (s : DatabaseState) : Except Unit (List MvcGroup) :=
  if s.storeFails then .error ()
  else .ok (s.groupRows.map toMvcGroup)

/-- `getInternalPluginIds()`: ids of the registered plugins whose `internal`
flag is set. -/
def getInternalPluginIds (s : DatabaseState) : Except Unit (List Nat) :=
  match getPlugins s with
  | .error e => .error e
  | .ok plugins => .ok ((plugins.filter (fun p => p.internal)).map (fun p => p.id))

/-- The row inserted by `registerPlugin` for a previously unknown name:
enabled, with empty override lists (the `threshold` column defaults to 2). -/
def freshPluginRow (s : DatabaseState) (name : String) (internal : Bool) : PluginRow :=
  { id := s.nextPluginId, name := name, enabled := true, internal := internal,
    threshold := 2, white_list_users := [], black_list_users := [] }

/-- `registerPlugin(opts, configs)`: insert a fresh enabled row when no row
with this name exists, then add the name to the runtime lists. -/
def registerPlugin (s : DatabaseState) (name : String) (internal : Bool)
    (external : Bool) : Except Unit Unit × DatabaseState :=
  if s.storeFails then (.error (), s)
  else
    let s1 :=
      if s.pluginRows.any (fun r => r.name = name) then s
      else
        { s with pluginRows := s.pluginRows ++ [freshPluginRow s name internal],
                 nextPluginId := s.nextPluginId + 1 }
    let s2 :=
      if name ∈ s1.registeredPlugins then s1
      else { s1 with registeredPlugins := s1.registeredPlugins ++ [name] }
    let s3 :=
      if external ∧ name ∉ s2.registeredExternalPlugins then
        { s2 with registeredExternalPlugins := s2.registeredExternalPlugins ++ [name] }
      else s2
    (.ok (), s3)

/-- `clearExternalPlugins()`: drop every externally registered name from the
runtime list, then empty the external list. -/
def clearExternalPlugins (s : DatabaseState) : DatabaseState :=
  { s with
    registeredPlugins :=
      s.registeredPlugins.filter (fun name => ¬ name ∈ s.registeredExternalPlugins),
    registeredExternalPlugins := [] }

/-- Model of lodash `uniq`: keep the first occurrence of every element. -/
def jsUniq (l : List Nat) : List Nat :=
  l.foldl (fun acc x => if x ∈ acc then acc else acc ++ [x]) []

/-- Partial plugin update payload (`Partial<IMvcPlugin>` with a present `id`). -/
structure PluginPatch where
  id : Nat
  name : Option String := none
  enabled : Option Bool := none
  internal : Option Bool := none
  threshold : Option Nat := none
  white_list_users : Option (List Nat) := none
  black_list_users : Option (List Nat) := none
  deriving Repr, DecidableEq

/-- Apply a plugin patch to a persisted row: provided fields overwrite the
stored columns, list fields being joined to delimited strings first. -/
def applyPluginPatch (r : PluginRow) (p : PluginPatch) : PluginRow :=
  { r with
    name := p.name.getD r.name,
    enabled := p.enabled.getD r.enabled,
    internal := p.internal.getD r.internal,
    threshold := p.threshold.getD r.threshold,
    white_list_users := (p.white_list_users.map joinComma).getD r.white_list_users,
    black_list_users := (p.black_list_users.map joinComma).getD r.black_list_users }

/-- `updatePlugin(plugin)`: no-op returning nothing when the id is absent;
otherwise stringify the provided override lists and update every row with
that id, returning the affected-row count. -/
def updatePlugin (s : DatabaseState) (p : PluginPatch) :
    Except Unit (Option Nat) × DatabaseState :=
  if s.storeFails then (.error (), s)
  else if s.pluginRows.any (fun r => r.id = p.id) then
    (.ok (some ((s.pluginRows.filter (fun r => r.id = p.id)).length)),
      { s with pluginRows :=
        s.pluginRows.map (fun r => if r.id = p.id then applyPluginPatch r p else r) })
  else (.ok none, s)

/-- Partial group update payload (`Partial<IMvcGroup>` with a present `id`). -/
structure GroupPatch where
  id : Nat
  name : Option String := none
  group_id : Option Nat := none
  expired_at : Option String := none
  admins : Option (List Nat) := none
  plugins : Option (List Nat) := none
  deriving Repr, DecidableEq

/-- Apply a group patch to a persisted row; `plugins`, when provided, has
already been merged with the internal plugin ids by `updateGroup`. -/
def applyGroupPatch (r : GroupRow) (p : GroupPatch) (mergedPlugins : Option (List Nat)) :
    GroupRow :=
  { r with
    name := p.name.getD r.name,
    group_id := p.group_id.getD r.group_id,
    expired_at := p.expired_at.getD r.expired_at,
    admins := (p.admins.map joinComma).getD r.admins,
    plugins := (mergedPlugins.map joinComma).getD r.plugins }

/-- `updateGroup(group)`: no-op when the id is absent; when `plugins` is
provided it is first re-merged (deduplicated) with the current internal
plugin ids; list fields are stringified before the row update. -/
def updateGroup (s : DatabaseState) (p : GroupPatch) :
    Except Unit (Option Nat) × DatabaseState :=
  if s.storeFails then (.error (), s)
  else if s.groupRows.any (fun r => r.id = p.id) then
    match getInternalPluginIds s, p.plugins with
    | .error e, _ => (.error e, s)
    | .ok internalIds, some l =>
      let merged := jsUniq (internalIds ++ l)
      let rows := s.groupRows.map
        (fun r => if r.id = p.id then applyGroupPatch r p (some merged) else r)
      (.ok (some ((s.groupRows.filter (fun r => r.id = p.id)).length)),
        { s with groupRows := rows })
    | .ok _, none =>
      let rows := s.groupRows.map
        (fun r => if r.id = p.id then applyGroupPatch r p none else r)
      (.ok (some ((s.groupRows.filter (fun r => r.id = p.id)).length)),
        { s with groupRows := rows })
  else (.ok none, s)

/-- Full group payload for `addGroup` (the persisted id is auto-incremented). -/
structure GroupInput where
  name : String
  group_id : Nat
  expired_at : String
  admins : List Nat
  plugins : List Nat
  deriving Repr, DecidableEq

/-- `addGroup(group)`: force-inject the current internal plugin ids into the
grant set (deduplicated), stringify the list fields, and insert the row. -/
def addGroup (s : DatabaseState) (g : GroupInput) :
    Except Unit Unit × DatabaseState :=
  match getInternalPluginIds s with
  | .error e => (.error e, s)
  | .ok internalIds =>
    let merged := jsUniq (internalIds ++ g.plugins)
    let row : GroupRow :=
      { id := s.nextGroupId, name := g.name, group_id := g.group_id,
        admins := joinComma g.admins, expired_at := g.expired_at,
        plugins := joinComma merged }
    (.ok (), { s with groupRows := s.groupRows ++ [row], nextGroupId := s.nextGroupId + 1 })

/-- `deleteGroup(id)`: unconditional delete by id, returning the affected-row
count. -/
def deleteGroup (s : DatabaseState) (id : Nat) : Except Unit Nat × DatabaseState :=
  if s.storeFails then (.error (), s)
  else (.ok ((s.groupRows.filter (fun r => r.id = id)).length),
    { s with groupRows := s.groupRows.filter (fun r => ¬ r.id = id) })

/-- Refresh path of `getPluginListFromCache` (the local `update` closure):
fetch, keep the enabled plugins, replace the snapshot and reset the timer.
Nothing is mutated when the store read throws. -/
def updatePluginCache (s : DatabaseState) (now : Nat) :
    Except Unit (List MvcPlugin) × DatabaseState :=
  match getPlugins s with
  | .error e => (.error e, s)
  | .ok plugins =>
    let snap := plugins.filter (fun p => p.enabled)
    (.ok snap, updateCacheTimeMap { s with pluginCache := some snap } cacheKeyPlugins now)

/-- `getPluginListFromCache()`: serve the snapshot while it exists and the
`plugins` key is fresh, otherwise refresh. -/
def getPluginListFromCache (s : DatabaseState) (now : Nat) :
    Except Unit (List MvcPlugin) × DatabaseState :=
  match s.pluginCache with
  | some cache =>
    if isCacheExpired s cacheKeyPlugins now then updatePluginCache s now
    else (.ok cache, s)
  | none => updatePluginCache s now

/-- Refresh path of `getGroupMapFromCache` (the local `update` closure):
re-populate the whole group map in one store read — existing entries are
overwritten, entries of deleted rows are left in place — then reset the
timer once. -/
def updateGroupCache (s : DatabaseState) (now : Nat) :
    Except Unit Unit × DatabaseState :=
  match getGroups s with
  | .error e => (.error e, s)
  | .ok groups =>
    let cache := groups.foldl (fun m g => assocSet m g.group_id g) s.groupCache
    (.ok (), updateCacheTimeMap { s with groupCache := cache } cacheKeyGroups now)

/-- `getGroupMapFromCache(groupId)`: serve the cached entry while present and
fresh, otherwise refresh the whole map and look the id up again. -/
def getGroupMapFromCache (s : DatabaseState) (groupId : Nat) (now : Nat) :
    Except Unit (Option MvcGroup) × DatabaseState :=
  match assocGet s.groupCache groupId with
  | some cache =>
    if isCacheExpired s cacheKeyGroups now then
      match updateGroupCache s now with
      | (.error e, s1) => (.error e, s1)
      | (.ok _, s1) => (.ok (assocGet s1.groupCache groupId), s1)
    else (.ok (some cache), s)
  | none =>
    match updateGroupCache s now with
    | (.error e, s1) => (.error e, s1)
    | (.ok _, s1) => (.ok (assocGet s1.groupCache groupId), s1)

/-- Modelled from the spec: `dayjs(expired_at).valueOf()` parses a calendar
timestamp string to an instant in epoch milliseconds; a string that fails to
parse yields an invalid instant (`NaN`), modelled as `none`.  The dayjs
library is an external collaborator, so parseable strings are modelled as
plain decimal millisecond values. -/
def dayjsValueOf (str : String) : Option Int :=
  if str.data ≠ [] ∧ str.data.all (fun c => 48 ≤ c.toNat ∧ c.toNat ≤ 57) then
    some (parseNatChars str.data : Nat)
  else none

/-- `isGroupValid(groupId)`: absent group is invalid; otherwise compare `now`
with the parsed `expired_at` instant (`now <= NaN` is false in JavaScript, so
a parse failure is invalid). -/
def isGroupValid (s : DatabaseState) (groupId : Nat) (now : Nat) :
    Except Unit Bool × DatabaseState :=
  match getGroupMapFromCache s groupId now with
  | (.error e, s1) => (.error e, s1)
  | (.ok none, s1) => (.ok false, s1)
  | (.ok (some g), s1) =>
    match dayjsValueOf g.expired_at with
    | none => (.ok false, s1)
    | some t => (.ok (decide ((now : Int) ≤ t)), s1)

/-- Last-wins lookup of a plugin by id (the `reduce` building `pluginMap`
keyed by id, later catalog entries overwriting earlier ones). -/
def pluginMapGet (ps : List MvcPlugin) (id : Nat) : Option MvcPlugin :=
  ps.foldl (fun acc p => if p.id = id then some p else acc) none

/-- One iteration of the override `forEach`: a whitelist hit pushes the id
when absent, then a blacklist hit splices the id out when present. -/
def stepOverride (userId : Nat) (ids : List Nat) (p : MvcPlugin) : List Nat :=
  let ids1 :=
    if userId ∈ p.white_list_users ∧ p.id ∉ ids then ids ++ [p.id] else ids
  if userId ∈ p.black_list_users ∧ p.id ∈ ids1 then ids1.erase p.id else ids1

/-- The whole override `forEach` over the catalog. -/
def applyUserOverrides (ps : List MvcPlugin) (userId : Nat) (ids : List Nat) :
    List Nat :=
  ps.foldl (stepOverride userId) ids

/-- JavaScript truthiness of the optional `userId` argument (`if (userId)`:
absent and `0` are both falsy). -/
def userIdTruthy (userId : Option Nat) : Bool :=
  match userId with
  | some u => ¬ u = 0
  | none => false

/-- `getAvailablePlugins({groupId, userId})`.  The working id array is the
very array stored in the cached group record, so the pushes and splices of
the override pass mutate the cache entry in place; this aliasing is modelled
by writing the final working set back into the cache entry under the key the
group was found at. -/
def getAvailablePlugins (s : DatabaseState) (groupId : Nat) (userId : Option Nat)
    (now : Nat) : Except Unit (List String) × DatabaseState :=
  match getGroupMapFromCache s groupId now with
  | (.error e, s1) => (.error e, s1)
  | (.ok none, s1) => (.ok [], s1)
  | (.ok (some group), s1) =>
    match getPluginListFromCache s1 now with
    | (.error e, s2) => (.error e, s2)
    | (.ok pluginsList, s2) =>
      let ids :=
        match userId with
        | some u => if ¬ u = 0 then applyUserOverrides pluginsList u group.plugins
            else group.plugins
        | none => group.plugins
      let mutated := { group with plugins := ids }
      let s3 :=
        if userIdTruthy userId then
          { s2 with groupCache := assocSet s2.groupCache groupId mutated }
        else s2
      let names := (ids.filterMap
        (fun id => (pluginMapGet pluginsList id).map (fun p => p.name))).filter
        (fun n => ¬ n.isEmpty)
      (.ok names, s3)

/-! ### Concrete scenarios -/

/-- A database state with no rows, nothing registered and cold caches. -/
def initState : DatabaseState :=
  { storeFails := false, nextPluginId := 1, nextGroupId := 1, pluginRows := [],
    groupRows := [], registeredPlugins := [], registeredExternalPlugins := [],
    pluginCache := none, groupCache := [], cacheTimeMap := [], cacheTime := 1000 }

/-- Catalog plugin 1: no override lists. -/
def c1Plugin1 : PluginRow :=
  { id := 1, name := "p1", enabled := true, internal := false, threshold := 2,
    white_list_users := [], black_list_users := [] }

/-- Catalog plugin 2: blacklist contains user 42. -/
def c1Plugin2 : PluginRow :=
  { id := 2, name := "p2", enabled := true, internal := false, threshold := 2,
    white_list_users := [], black_list_users := joinComma [42] }

/-- Catalog plugin 3: whitelist contains user 42. -/
def c1Plugin3 : PluginRow :=
  { id := 3, name := "p3", enabled := true, internal := false, threshold := 2,
    white_list_users := joinComma [42], black_list_users := [] }

/-- Persisted group 100 whose grant set is `{1,2}`. -/
def c1Group : GroupRow :=
  { id := 1, name := "g", group_id := 100, admins := [], expired_at := "2000",
    plugins := joinComma [1, 2] }

/-- Scenario state for the whitelist/blacklist resolution claim. -/
def c1State : DatabaseState :=
  { initState with
    nextPluginId := 4, nextGroupId := 2,
    pluginRows := [c1Plugin1, c1Plugin2, c1Plugin3],
    groupRows := [c1Group],
    registeredPlugins := ["p1", "p2", "p3"] }

/-- A plugin row whose `internal` flag is set but whose name is not in the
runtime `registeredPlugins` list. -/
def c3Row : PluginRow :=
  { id := 1, name := "hidden", enabled := true, internal := true, threshold := 2,
    white_list_users := [], black_list_users := [] }

/-- State holding only the unregistered internal plugin. -/
def c3State : DatabaseState :=
  { initState with nextPluginId := 2, pluginRows := [c3Row] }

/-- A group payload with an empty grant set. -/
def c3Input : GroupInput :=
  { name := "g", group_id := 5, expired_at := "2000", admins := [], plugins := [] }

/-- An internal plugin row that is also registered. -/
def c3WRow : PluginRow :=
  { id := 7, name := "core", enabled := true, internal := true, threshold := 2,
    white_list_users := [], black_list_users := [] }

/-- State holding the registered internal plugin. -/
def c3WState : DatabaseState :=
  { initState with
    nextPluginId := 8, pluginRows := [c3WRow], registeredPlugins := ["core"] }

/-- A group payload with an empty grant set, for the amended superset claim. -/
def c3WInput : GroupInput :=
  { name := "g2", group_id := 9, expired_at := "2000", admins := [], plugins := [] }

/-- A cached group record whose backing row has been deleted from the store. -/
def c5Group : MvcGroup :=
  { id := 1, name := "g", group_id := 100, expired_at := "2000", admins := [],
    plugins := [1] }

/-- State where group 100 sits in the cache (timestamp 10) but the group table
is empty, as after `deleteGroup`. -/
def c5State : DatabaseState :=
  { initState with
    groupCache := [(100, c5Group)], cacheTimeMap := [(cacheKeyGroups, 10)] }

/-! ### Helper lemmas -/

theorem jsUniq_go_mem (l : List Nat) : ∀ (acc : List Nat) (x : Nat),
    (x ∈ l.foldl (fun acc x => if x ∈ acc then acc else acc ++ [x]) acc) ↔
      (x ∈ acc ∨ x ∈ l) := by
  induction l with
  | nil => intro acc x; simp
  | cons y ys ih =>
    intro acc x
    simp only [List.foldl_cons]
    by_cases h : y ∈ acc
    · rw [if_pos h, ih]
      constructor
      · rintro (hx | hx)
        · exact Or.inl hx
        · exact Or.inr (List.mem_cons_of_mem _ hx)
      · rintro (hx | hx)
        · exact Or.inl hx
        · rcases List.mem_cons.mp hx with rfl | hx
          · exact Or.inl h
          · exact Or.inr hx
    · rw [if_neg h, ih]
      simp only [List.mem_append, List.mem_cons, List.mem_singleton]
      tauto

theorem mem_jsUniq (l : List Nat) (x : Nat) : x ∈ jsUniq l ↔ x ∈ l := by
  simp [jsUniq, jsUniq_go_mem]

theorem getInternalPluginIds_storeFails (s : DatabaseState) (ids : List Nat)
    (h : getInternalPluginIds s = .ok ids) : s.storeFails = false := by
  by_contra hsf
  rw [Bool.not_eq_false] at hsf
  simp [getInternalPluginIds, getPlugins, hsf] at h

theorem assocGet_foldl_set_none (gs : List MvcGroup) :
    ∀ (m : List (Nat × MvcGroup)) (gid : Nat), assocGet m gid = none →
      (∀ g ∈ gs, g.group_id ≠ gid) →
      assocGet (gs.foldl (fun m g => assocSet m g.group_id g) m) gid = none := by
  induction gs with
  | nil => intro m gid hm _; simpa using hm
  | cons g gs ih =>
    intro m gid hm hgs
    simp only [List.foldl_cons]
    refine ih _ _ ?_ (fun x hx => hgs x (List.mem_cons_of_mem _ hx))
    rw [assocGet_assocSet_ne _ _ _ _ (hgs g (List.mem_cons_self _ _))]
    exact hm

/-! ### Claim theorems -/

/-- Claim C1: for the group whose persisted grant set is `{1,2}`, with
catalog plugin 3 whitelisting user 42 and catalog plugin 2 blacklisting
user 42, `getAvailablePlugins` with user 42 returns the names of ids
`{1,3}` (2 removed by the blacklist, 3 added by the whitelist), and the
call without a user id returns the names of ids `{1,2}`. -/
theorem getAvailablePlugins_whitelist_blacklist :
    (getAvailablePlugins c1State 100 (some 42) 5).1 = .ok ["p1", "p3"] ∧
    (getAvailablePlugins c1State 100 none 5).1 = .ok ["p1", "p2"] := by
  constructor
  · decide
  · decide

/-- Claim C2: with a user id supplied, `getAvailablePlugins` mutates the
cached group record in place — the working id array aliases the cache
entry, so the whitelist push and blacklist splice are written into the
group cache (while the persisted rows stay untouched) and a later call in
the same cache window without a user id sees the mutated grant set
`{1,3}` instead of the persisted `{1,2}`. -/
theorem getAvailablePlugins_mutates_cached_group :
    ((assocGet (getAvailablePlugins c1State 100 (some 42) 5).2.groupCache 100).map
      (fun g => g.plugins) = some [1, 3]) ∧
    ((getAvailablePlugins (getAvailablePlugins c1State 100 (some 42) 5).2
      100 none 6).1 = .ok ["p1", "p3"]) ∧
    ((getAvailablePlugins c1State 100 (some 42) 5).2.groupRows = c1State.groupRows) := by
  refine ⟨by decide, by decide, by decide⟩

/-- Claim C3 counterexample: a plugin row with `internal = true` whose name
is not registered in the runtime is not injected by `addGroup`: the
persisted grant set of the new group stays empty, so it is not a superset
of the set of all `internal = true` plugin ids. -/
theorem addGroup_unregistered_internal_not_forced :
    ((addGroup c3State c3Input).2.groupRows.map
      (fun r => toArrayNumber r.plugins) = [[]]) ∧
    (c3State.pluginRows.map (fun r => (r.id, r.internal)) = [(1, true)]) := by
  refine ⟨by decide, by decide⟩

/-- Claim C3 (amended): after `addGroup`, or after an `updateGroup` whose
fields include `plugins`, the persisted grant set of the touched group is a
superset of the ids returned by `getInternalPluginIds` — the plugins with
`internal = true` whose name is currently registered (unregistered internal
plugins are not forced, see the counterexample). -/
theorem group_writes_force_registered_internal_ids
    (s : DatabaseState) (ids : List Nat) (pid : Nat)
    (hids : getInternalPluginIds s = .ok ids) (hpid : pid ∈ ids) :
    (∀ g : GroupInput, ∃ row : GroupRow,
      (addGroup s g).2.groupRows = s.groupRows ++ [row] ∧
      pid ∈ toArrayNumber row.plugins) ∧
    (∀ (p : GroupPatch) (l : List Nat), p.plugins = some l →
      s.groupRows.any (fun r => r.id = p.id) = true →
      ∀ r ∈ (updateGroup s p).2.groupRows, r.id = p.id →
        pid ∈ toArrayNumber r.plugins) := by
  have hsf : s.storeFails = false := getInternalPluginIds_storeFails s ids hids
  constructor
  · intro g
    simp only [addGroup, hids]
    refine ⟨_, rfl, ?_⟩
    show pid ∈ toArrayNumber (joinComma (jsUniq (ids ++ g.plugins)))
    rw [toArrayNumber_joinComma, mem_jsUniq]
    exact List.mem_append_left _ hpid
  · intro p l hpl hany r hr hid
    simp only [updateGroup, hsf, Bool.false_eq_true, if_false, hany, if_true, hids,
      hpl] at hr
    rcases List.mem_map.mp hr with ⟨r0, hr0, rfl⟩
    by_cases h0 : r0.id = p.id
    · rw [if_pos h0]
      show pid ∈ toArrayNumber (joinComma (jsUniq (ids ++ l)))
      rw [toArrayNumber_joinComma, mem_jsUniq]
      exact List.mem_append_left _ hpid
    · rw [if_neg h0] at hid
      exact absurd hid h0

/-- Claim C3 amended, witness: a registered internal plugin with id 7 is
injected into the grant set persisted by `addGroup`. -/
theorem group_writes_force_registered_internal_ids_witness :
    ∃ row : GroupRow, (addGroup c3WState c3WInput).2.groupRows =
      c3WState.groupRows ++ [row] ∧ 7 ∈ toArrayNumber row.plugins :=
  (group_writes_force_registered_internal_ids c3WState [7] 7 (by decide)
    (by decide)).1 c3WInput

/-- Claim C5 counterexample: group 100 was cached earlier and then deleted
from the store; at a later instant the cache entry is expired, the lookup
performs a refresh attempt (the store read succeeds and returns no rows),
yet `getGroupMapFromCache` still returns the stale cached record instead of
"not found". -/
theorem getGroupMapFromCache_returns_deleted_cached_group :
    ((getGroupMapFromCache c5State 100 2000).1 = .ok (some c5Group)) ∧
    (c5State.groupRows = []) ∧
    (isCacheExpired c5State cacheKeyGroups 2000 = true) ∧
    (c5State.storeFails = false) := by
  refine ⟨by decide, by decide, by decide, by decide⟩

/-- Claim C5 (amended): for an external id absent from the persisted store
that has never been cached, a lookup refreshes and returns "not found"
without throwing (the store read succeeding); a previously cached id whose
row was deleted keeps returning the stale cached record instead (see the
counterexample). -/
theorem getGroupMapFromCache_uncached_absent_not_found
    (s : DatabaseState) (gid now : Nat)
    (hok : s.storeFails = false)
    (hcache : assocGet s.groupCache gid = none)
    (hrows : ∀ r ∈ s.groupRows, r.group_id ≠ gid) :
    (getGroupMapFromCache s gid now).1 = .ok none := by
  have hmvc : ∀ g ∈ s.groupRows.map toMvcGroup, g.group_id ≠ gid := by
    intro g hg
    rcases List.mem_map.mp hg with ⟨r, hr, rfl⟩
    exact hrows r hr
  have hget : getGroups s = .ok (s.groupRows.map toMvcGroup) := by
    simp [getGroups, hok]
  simp only [getGroupMapFromCache, hcache, updateGroupCache, hget,
    updateCacheTimeMap]
  exact congrArg Except.ok (assocGet_foldl_set_none _ _ _ hcache hmvc)

/-- Claim C5 amended, witness: looking up an id that is neither cached nor
persisted returns "not found". -/
theorem getGroupMapFromCache_uncached_absent_not_found_witness :
    (getGroupMapFromCache initState 42 0).1 = .ok none :=
  getGroupMapFromCache_uncached_absent_not_found initState 42 0 rfl rfl
    (by intro r hr; simp [initState] at hr)

/-- State for the stale-on-error witness: a cached (empty) snapshot with
refresh timestamp 5, a short TTL, and a failing store. -/
def c4State : DatabaseState :=
  { initState with
    storeFails := true, pluginCache := some [],
    cacheTimeMap := [(cacheKeyPlugins, 5)], cacheTime := 10 }

/-- Claim C4: if the store read fails during a plugin-catalog cache refresh,
the error propagates to the caller of `getPluginListFromCache`, the state —
previous snapshot and refresh timestamp included — is left unchanged, and a
later non-expired call still serves the previous snapshot. -/
theorem getPluginListFromCache_stale_on_error
    (s : DatabaseState) (snap : List MvcPlugin) (now now2 : Nat)
    (hsnap : s.pluginCache = some snap) (hfail : s.storeFails = true)
    (hexp : isCacheExpired s cacheKeyPlugins now = true) :
    getPluginListFromCache s now = (.error (), s) ∧
    (isCacheExpired s cacheKeyPlugins now2 = false →
      getPluginListFromCache s now2 = (.ok snap, s)) := by
  constructor
  · simp [getPluginListFromCache, hsnap, hexp, updatePluginCache, getPlugins, hfail]
  · intro h2
    simp [getPluginListFromCache, hsnap, h2]

/-- Claim C4 witness: concrete failing refresh at instant 20 (expired) and a
successful stale read at instant 6 (fresh). -/
theorem getPluginListFromCache_stale_on_error_witness :
    getPluginListFromCache c4State 20 = (.error (), c4State) ∧
    getPluginListFromCache c4State 6 = (.ok [], c4State) := by
  have h := getPluginListFromCache_stale_on_error c4State [] 20 6 rfl rfl (by decide)
  exact ⟨h.1, h.2 (by decide)⟩

theorem registerPlugin_snd_pluginRows (s : DatabaseState) (name : String)
    (i e : Bool) (hok : s.storeFails = false) :
    (registerPlugin s name i e).2.pluginRows =
      (if s.pluginRows.any (fun r => r.name = name) then s.pluginRows
       else s.pluginRows ++ [freshPluginRow s name i]) := by
  simp only [registerPlugin, hok, Bool.false_eq_true, if_false,
    apply_ite DatabaseState.pluginRows, ite_self]

theorem registerPlugin_snd_registeredPlugins (s : DatabaseState) (name : String)
    (i e : Bool) (hok : s.storeFails = false) :
    (registerPlugin s name i e).2.registeredPlugins =
      (if name ∈ s.registeredPlugins then s.registeredPlugins
       else s.registeredPlugins ++ [name]) := by
  simp only [registerPlugin, hok, Bool.false_eq_true, if_false,
    apply_ite DatabaseState.registeredPlugins, ite_self]

theorem registerPlugin_snd_storeFails (s : DatabaseState) (name : String)
    (i e : Bool) (hok : s.storeFails = false) :
    (registerPlugin s name i e).2.storeFails = false := by
  simp only [registerPlugin, hok, Bool.false_eq_true, if_false,
    apply_ite DatabaseState.storeFails, ite_self]

/-- Claim C6: `registerPlugin` is idempotent — two calls with the same name
leave exactly one persisted row for that name and the name exactly once in
the runtime `registeredPlugins` list, and when a persisted row for the name
already exists the persisted table is left entirely unchanged (admin edits
to its fields survive re-registration). -/
theorem registerPlugin_idempotent
    (s : DatabaseState) (name : String) (i1 e1 i2 e2 : Bool)
    (hok : s.storeFails = false)
    (hrow : (s.pluginRows.filter (fun r => r.name = name)).length ≤ 1)
    (hrt : s.registeredPlugins.count name ≤ 1) :
    (((registerPlugin (registerPlugin s name i1 e1).2 name i2 e2).2.pluginRows.filter
        (fun r => r.name = name)).length = 1) ∧
    ((registerPlugin (registerPlugin s name i1 e1).2
        name i2 e2).2.registeredPlugins.count name = 1) ∧
    (s.pluginRows.any (fun r => r.name = name) = true →
      (registerPlugin (registerPlugin s name i1 e1).2 name i2 e2).2.pluginRows =
        s.pluginRows) := by
  have hsf1 : (registerPlugin s name i1 e1).2.storeFails = false :=
    registerPlugin_snd_storeFails s name i1 e1 hok
  have hrows1 := registerPlugin_snd_pluginRows s name i1 e1 hok
  have hnames1 := registerPlugin_snd_registeredPlugins s name i1 e1 hok
  have hrows2 := registerPlugin_snd_pluginRows (registerPlugin s name i1 e1).2
    name i2 e2 hsf1
  have hnames2 := registerPlugin_snd_registeredPlugins (registerPlugin s name i1 e1).2
    name i2 e2 hsf1
  have hrowsEnd : (registerPlugin (registerPlugin s name i1 e1).2
      name i2 e2).2.pluginRows =
      (if s.pluginRows.any (fun r => r.name = name) then s.pluginRows
       else s.pluginRows ++ [freshPluginRow s name i1]) := by
    rw [hrows2, hrows1]
    by_cases hany : s.pluginRows.any (fun r => r.name = name) = true
    · simp [hany]
    · have hfr : (s.pluginRows ++ [freshPluginRow s name i1]).any
          (fun r => r.name = name) = true := by
        simp [List.any_append, freshPluginRow]
      simp [hany, hfr]
  have hnamesEnd : (registerPlugin (registerPlugin s name i1 e1).2
      name i2 e2).2.registeredPlugins =
      (if name ∈ s.registeredPlugins then s.registeredPlugins
       else s.registeredPlugins ++ [name]) := by
    rw [hnames2, hnames1]
    by_cases hmem : name ∈ s.registeredPlugins
    · simp [hmem]
    · simp [hmem]
  refine ⟨?_, ?_, ?_⟩
  · rw [hrowsEnd]
    by_cases hany : s.pluginRows.any (fun r => r.name = name) = true
    · rw [if_pos hany]
      rcases List.any_eq_true.mp hany with ⟨r, hrmem, hrname⟩
      have hmemf : r ∈ s.pluginRows.filter (fun r => r.name = name) :=
        List.mem_filter.mpr ⟨hrmem, hrname⟩
      have hpos : 0 < (s.pluginRows.filter (fun r => r.name = name)).length :=
        List.length_pos.mpr (List.ne_nil_of_mem hmemf)
      omega
    · rw [if_neg hany]
      have hnil : s.pluginRows.filter (fun r => r.name = name) = [] := by
        rw [List.filter_eq_nil_iff]
        intro r hrmem hdec
        exact absurd (List.any_eq_true.mpr ⟨r, hrmem, hdec⟩) hany
      rw [List.filter_append, hnil]
      simp [freshPluginRow]
  · rw [hnamesEnd]
    by_cases hmem : name ∈ s.registeredPlugins
    · rw [if_pos hmem]
      have hpos : 0 < s.registeredPlugins.count name := List.count_pos_iff.mpr hmem
      omega
    · rw [if_neg hmem]
      have hz : s.registeredPlugins.count name = 0 := List.count_eq_zero.mpr hmem
      simp [List.count_append, hz]
  · intro hany
    rw [hrowsEnd, if_pos hany]

/-- The plugin name used by the idempotence witness. -/
def namePx : String := "px"

/-- Claim C6 witness: registering the same fresh name twice on the empty
state leaves one row and one runtime entry. -/
theorem registerPlugin_idempotent_witness :
    (((registerPlugin (registerPlugin initState namePx true false).2
        namePx false true).2.pluginRows.filter
        (fun r => r.name = namePx)).length = 1) ∧
    ((registerPlugin (registerPlugin initState namePx true false).2
        namePx false true).2.registeredPlugins.count namePx = 1) := by
  have h := registerPlugin_idempotent initState namePx true false false true rfl
    (by decide) (by decide)
  exact ⟨h.1, h.2.1⟩

/-- Claim C7: `clearExternalPlugins` empties the external registry and keeps
exactly the active names that were not externally registered — a name
remains active after the call iff it was active before and not in the
external list. -/
theorem clearExternalPlugins_removes_exactly_external
    (s : DatabaseState) (name : String) :
    ((clearExternalPlugins s).registeredExternalPlugins = []) ∧
    (name ∈ (clearExternalPlugins s).registeredPlugins ↔
      (name ∈ s.registeredPlugins ∧ name ∉ s.registeredExternalPlugins)) := by
  constructor
  · rfl
  · simp [clearExternalPlugins, List.mem_filter]

/-- Runtime state with one internal and one external registration. -/
def c7State : DatabaseState :=
  { initState with
    registeredPlugins := ["keep", "ext"], registeredExternalPlugins := ["ext"] }

/-- The internally registered name of the clearing witness. -/
def nameKeep : String := "keep"

/-- Claim C7 witness: the internally registered name survives the clearing
and the external registry ends empty. -/
theorem clearExternalPlugins_removes_exactly_external_witness :
    ((clearExternalPlugins c7State).registeredExternalPlugins = []) ∧
    (nameKeep ∈ (clearExternalPlugins c7State).registeredPlugins) := by
  have h := clearExternalPlugins_removes_exactly_external c7State nameKeep
  exact ⟨h.1, h.2.mpr (by decide)⟩

/-- Group row used by the validity witness: expires at instant 1000. -/
def c8Group : GroupRow :=
  { id := 1, name := "g", group_id := 100, admins := [], expired_at := "1000",
    plugins := [] }

/-- State persisting only the group that expires at instant 1000. -/
def c8State : DatabaseState :=
  { initState with nextGroupId := 2, groupRows := [c8Group] }

/-- Claim C8: `isGroupValid` returns false for an unknown group id; for a
known group it returns true strictly before the parsed `expired_at` instant
and false once `now` passes it; and a parse failure of `expired_at` behaves
as an expired group (false). -/
theorem isGroupValid_spec (s : DatabaseState) (gid now : Nat) (s1 : DatabaseState) :
    (getGroupMapFromCache s gid now = (.ok none, s1) →
      isGroupValid s gid now = (.ok false, s1)) ∧
    (∀ (g : MvcGroup) (t : Int),
      getGroupMapFromCache s gid now = (.ok (some g), s1) →
      dayjsValueOf g.expired_at = some t →
      (((now : Int) < t → isGroupValid s gid now = (.ok true, s1)) ∧
       (t < (now : Int) → isGroupValid s gid now = (.ok false, s1)))) ∧
    (∀ g : MvcGroup,
      getGroupMapFromCache s gid now = (.ok (some g), s1) →
      dayjsValueOf g.expired_at = none →
      isGroupValid s gid now = (.ok false, s1)) := by
  refine ⟨?_, ?_, ?_⟩
  · intro h
    simp [isGroupValid, h]
  · intro g t h hp
    constructor
    · intro hlt
      simp [isGroupValid, h, hp, le_of_lt hlt]
    · intro hgt
      simp [isGroupValid, h, hp, not_le.mpr hgt]
  · intro g h hp
    simp [isGroupValid, h, hp]

/-- Claim C8 witness: the known group is valid at instant 50 (before 1000)
and an unknown id yields false. -/
theorem isGroupValid_spec_witness :
    (isGroupValid c8State 100 50 = (.ok true, (getGroupMapFromCache c8State 100 50).2)) ∧
    (isGroupValid initState 999 3 = (.ok false, (getGroupMapFromCache initState 999 3).2)) := by
  constructor
  · exact ((isGroupValid_spec c8State 100 50
      (getGroupMapFromCache c8State 100 50).2).2.1 (toMvcGroup c8Group) 1000
      (by decide) (by decide)).1 (by decide)
  · exact (isGroupValid_spec initState 999 3
      (getGroupMapFromCache initState 999 3).2).1 (by decide)

/-- Timestamp-zero state for the expiry counterexample. -/
def c9ZeroState : DatabaseState :=
  { initState with cacheTimeMap := [(cacheKeyPlugins, 0)], cacheTime := 100 }

/-- Claim C9 counterexample: a recorded refresh timestamp of 0 is falsy in
JavaScript, so `isCacheExpired` reports the key expired even though a prior
refresh timestamp exists and `now - lastRefreshTimestamp < ttl` — refuting
the claimed "if and only if". -/
theorem isCacheExpired_zero_timestamp_counterexample :
    (isCacheExpired c9ZeroState cacheKeyPlugins 5 = true) ∧
    (assocGet c9ZeroState.cacheTimeMap cacheKeyPlugins = some 0) ∧
    ((5 : Int) - (0 : Int) < (c9ZeroState.cacheTime : Int)) := by
  refine ⟨by decide, by decide, by decide⟩

/-- Claim C9 (amended): a cache key is expired iff no refresh timestamp is
recorded for it, or the recorded timestamp is the falsy value 0, or
`now - lastRefreshTimestamp >= ttl`; consequently, after a refresh at a
nonzero instant, a second catalog call within the TTL window returns the
identical snapshot without re-fetching (the state is untouched), and a call
past the window performs one re-fetch that replaces the snapshot and resets
the timer. -/
theorem cacheExpiry_characterization :
    (∀ (s : DatabaseState) (key : String) (now : Nat),
      isCacheExpired s key now = true ↔
        ∀ t, assocGet s.cacheTimeMap key = some t →
          (t = 0 ∨ (s.cacheTime : Int) ≤ (now : Int) - (t : Int))) ∧
    (∀ (s : DatabaseState) (now1 now2 : Nat) (snap : List MvcPlugin)
        (s1 : DatabaseState),
      s.storeFails = false → ¬ now1 = 0 →
      isCacheExpired s cacheKeyPlugins now1 = true →
      getPluginListFromCache s now1 = (.ok snap, s1) →
      (now2 : Int) - (now1 : Int) < (s.cacheTime : Int) →
      getPluginListFromCache s1 now2 = (.ok snap, s1)) ∧
    (∀ (s : DatabaseState) (now1 now3 : Nat) (snap : List MvcPlugin)
        (s1 : DatabaseState) (ps : List MvcPlugin),
      s.storeFails = false → ¬ now1 = 0 →
      isCacheExpired s cacheKeyPlugins now1 = true →
      getPluginListFromCache s now1 = (.ok snap, s1) →
      (s.cacheTime : Int) ≤ (now3 : Int) - (now1 : Int) →
      getPlugins s1 = .ok ps →
      getPluginListFromCache s1 now3 =
        (.ok (ps.filter (fun p => p.enabled)),
          updateCacheTimeMap
            { s1 with pluginCache := some (ps.filter (fun p => p.enabled)) }
            cacheKeyPlugins now3)) := by
  refine ⟨?_, ?_, ?_⟩
  · intro s key now
    cases h : assocGet s.cacheTimeMap key with
    | none => simp [isCacheExpired, h]
    | some t =>
      simp only [isCacheExpired, h, Option.some.injEq, forall_eq']
      by_cases hc : t ≠ 0 ∧ (now : Int) - (t : Int) < (s.cacheTime : Int)
      · simp only [if_pos hc, Bool.false_eq_true, false_iff]
        omega
      · simp only [if_neg hc, eq_self_iff_true, true_iff]
        omega
  · intro s now1 now2 snap s1 hsf hn0 hexp hcall hwin
    have hupd : updatePluginCache s now1 = (.ok snap, s1) := by
      cases hpc : s.pluginCache with
      | none => simpa [getPluginListFromCache, hpc] using hcall
      | some c => simpa [getPluginListFromCache, hpc, hexp] using hcall
    simp only [updatePluginCache, getPlugins, hsf, Bool.false_eq_true, if_false,
      Prod.mk.injEq, Except.ok.injEq] at hupd
    obtain ⟨hsnap, hs1⟩ := hupd
    have hpc1 : s1.pluginCache = some snap := by
      rw [← hs1, ← hsnap]
      rfl
    have hct1 : s1.cacheTime = s.cacheTime := by
      rw [← hs1]
      rfl
    have hts1 : assocGet s1.cacheTimeMap cacheKeyPlugins = some now1 := by
      rw [← hs1]
      exact assocGet_assocSet_self _ _ _
    have hfresh : isCacheExpired s1 cacheKeyPlugins now2 = false := by
      simp only [isCacheExpired, hts1, hct1]
      rw [if_pos ⟨hn0, hwin⟩]
    simp only [getPluginListFromCache, hpc1, hfresh, Bool.false_eq_true, if_false]
  · intro s now1 now3 snap s1 ps hsf hn0 hexp hcall hw3 hgp
    have hupd : updatePluginCache s now1 = (.ok snap, s1) := by
      cases hpc : s.pluginCache with
      | none => simpa [getPluginListFromCache, hpc] using hcall
      | some c => simpa [getPluginListFromCache, hpc, hexp] using hcall
    simp only [updatePluginCache, getPlugins, hsf, Bool.false_eq_true, if_false,
      Prod.mk.injEq, Except.ok.injEq] at hupd
    obtain ⟨hsnap, hs1⟩ := hupd
    have hpc1 : s1.pluginCache = some snap := by
      rw [← hs1, ← hsnap]
      rfl
    have hct1 : s1.cacheTime = s.cacheTime := by
      rw [← hs1]
      rfl
    have hts1 : assocGet s1.cacheTimeMap cacheKeyPlugins = some now1 := by
      rw [← hs1]
      exact assocGet_assocSet_self _ _ _
    have hstale : isCacheExpired s1 cacheKeyPlugins now3 = true := by
      simp only [isCacheExpired, hts1, hct1]
      rw [if_neg (fun hcond => absurd hcond.2 (not_lt.mpr hw3))]
    simp only [getPluginListFromCache, hpc1, hstale, if_true]
    simp only [updatePluginCache, hgp]

/-- Base state for the cache-freshness witness: one registered enabled
plugin, cold cache. -/
def c9WState : DatabaseState :=
  { initState with pluginRows := [c1Plugin1], registeredPlugins := ["p1"] }

/-- The snapshot produced by the first refresh of the witness state. -/
def c9WSnap : List MvcPlugin := [toMvcPlugin c1Plugin1]

/-- The witness state after its first refresh at instant 5. -/
def c9WState1 : DatabaseState :=
  { c9WState with
    pluginCache := some c9WSnap, cacheTimeMap := [(cacheKeyPlugins, 5)] }

/-- Claim C9 amended, witness: a call at instant 6, one unit after the
refresh at instant 5, serves the identical snapshot without touching the
state. -/
theorem cacheExpiry_characterization_witness :
    getPluginListFromCache c9WState1 6 = (.ok c9WSnap, c9WState1) :=
  cacheExpiry_characterization.2.1 c9WState 5 6 c9WSnap c9WState1 rfl
    (by decide) (by decide) (by decide) (by decide)

/-- Claim C10: serializing an ordered sequence of integers to the
comma-delimited string form (`array.join`) and parsing it back with
`toArrayNumber` reproduces the original sequence, and parsing the empty
string yields the empty sequence. -/
theorem serializeParse_roundtrip :
    (∀ l : List Nat, toArrayNumber (joinComma l) = l) ∧ toArrayNumber [] = [] :=
  ⟨toArrayNumber_joinComma, rfl⟩

end Mahiro
